import Mathlib

set_option linter.unusedVariables false

/-
Shallow embedding of src/axelrod/strategy_transformers.py.

The module turns an existing strategy class into a derived class whose
strategy method is the original proposed action passed through a wrapper
function, with the class name and player name prefixed.  Pure wrapper
functions become Lean functions; the mutable state of the stateful wrappers
(RetaliationWrapper.is_retaliating, the player's lazily created
_recorded_history attribute) is passed and returned explicitly; a Python
call that can raise (KeyError, IndexError, AttributeError) is modelled by
an Option result, none standing for the raised exception.
-/

namespace Axelrod

/-- Modelled from the spec: the Action Domain (axelrod.actions, outside
src/) is an opaque two-valued type with values Cooperate and Defect. -/
inductive Action where
  | C : Action
  | D : Action
deriving DecidableEq, Repr

/-- Modelled from the spec: flip (axelrod.actions.flip_action, outside
src/), the involutive swap Cooperate <-> Defect. -/
def flip_action : Action → Action
  | Action.C => Action.D
  | Action.D => Action.C

/-- Modelled from the spec: the Agent Contract (axelrod.Player, outside
src/).  An agent instance owns its own append-only action history, the
tournament metadata length field (-1 when the match length is unknown), and
the `_recorded_history` attribute created lazily by history_track_wrapper
(none models the attribute being absent from the instance). -/
structure Player where
  history : List Action
  length : Int
  recordedHistory : Option (List Action)
deriving DecidableEq, Repr

/-- Embedding of flip_wrapper (strategy_transformers.py lines 109-111). -/
def flip_wrapper (player opponent : Player) (action : Action) : Action :=
  flip_action action

/-- Embedding of noisy_wrapper (lines 115-120).  The argument r models the
value returned by random.random(), a uniform sample with 0 <= r < 1. -/
def noisy_wrapper (player opponent : Player) (action : Action)
    (noise r : ℚ) : Action :=
  if r < noise then flip_action action else action

/-- Embedding of initial_sequence (lines 146-153): play the moves of
initial_seq first, then defer to the proposed action. -/
def initial_sequence (player opponent : Player) (action : Action)
    (initial_seq : List Action) : Action :=
  let index := player.history.length
  if h : index < initial_seq.length then initial_seq.get ⟨index, h⟩
  else action

/-- Python list indexing seq[i] with a possibly negative index: a negative
index counts from the end; none models the IndexError raised when the index
is out of range. -/
def pyIndex (seq : List Action) (i : Int) : Option Action :=
  let j := if i < 0 then i + seq.length else i
  if 0 ≤ j ∧ j < (seq.length : Int) then seq.get? j.toNat else none

/-- Embedding of final_sequence (lines 167-179): reads
player.tournament_attributes["length"] (the length field), passes the
proposed action through when the length is negative, and otherwise plays
seq[-index] for index = length - len(player.history) once index <=
len(seq). -/
def final_sequence (player opponent : Player) (action : Action)
    (seq : List Action) : Option Action :=
  let length := player.length
  if length < 0 then some action
  else
    let index : Int := length - player.history.length
    if index ≤ (seq.length : Int) then pyIndex seq (-index)
    else some action

/-- Embedding of RetaliationWrapper.__call__ (lines 200-210), with the
wrapper object's mutable is_retaliating field passed in and the updated
field returned next to the chosen action.  none models the IndexError that
opponent.history[-1] raises on an empty opponent history. -/
def retaliationCall (is_retaliating : Bool)
    (playerHistory oppHistory : List Action) (action : Action) :
    Option (Action × Bool) :=
  if playerHistory.length = 0 then some (action, is_retaliating)
  else
    match oppHistory.getLast? with
    | none => none
    | some last =>
      let isRet := if last = Action.D then true else is_retaliating
      if isRet then
        if last = Action.C then some (Action.C, false)
        else some (Action.D, isRet)
      else some (action, isRet)

/-- Embedding of history_track_wrapper (lines 221-227): appends the action
to the instance's _recorded_history, creating the attribute on first use
(the AttributeError branch), and returns the action unchanged together with
the updated instance. -/
def history_track_wrapper (player opponent : Player) (action : Action) :
    Action × Player :=
  match player.recordedHistory with
  | some l => (action, { player with recordedHistory := some (l ++ [action]) })
  | none => (action, { player with recordedHistory := some [action] })

/-- A strategy method as stored in a class dict: either a staticmethod
taking only the opponent or a plain method taking self and opponent
(the dispatch of lines 85-89).  The Option result models a call that may
raise. -/
inductive StrategyMethod where
  | staticM : (Player → Option Action) → StrategyMethod
  | instanceM : (Player → Player → Option Action) → StrategyMethod

/-- Invoking a strategy method on an instance, dispatching on the
staticmethod check of line 86. -/
def callBase : StrategyMethod → Player → Player → Option Action
  | StrategyMethod.staticM f, _, opponent => f opponent
  | StrategyMethod.instanceM f, self, opponent => f self opponent

/-- A player class: its __name__, its name class attribute, its other
class attributes (inherited unchanged by a derived class), and the entry
the factory looks up under "strategy" (none when the class does not define
one). -/
structure PlayerClass where
  className : String
  name : String
  attrs : List (String × String)
  strategy : Option StrategyMethod

/-- The strategy method that decorate defines (lines 84-92): at call time
it looks up "strategy" on the base class (none models the KeyError raised
by PlayerClass.__dict__["strategy"] when the base class has none),
dispatches static versus instance, and applies the wrapper to the proposed
action. -/
def wrappedStrategy (wrapper : Player → Player → Action → Option Action)
    (PC : PlayerClass) : Player → Player → Option Action :=
  fun self opponent =>
    match PC.strategy with
    | none => none
    | some m =>
      match callBase m self opponent with
      | none => none
      | some proposed => wrapper self opponent proposed

/-- Embedding of decorate (lines 67-107): builds the derived class with the
wrapped strategy method and the prefixed names.  namePre models the
name_prefix argument; Python's `if name_prefix:` test is false both for
None and for the empty string, in which case the names are kept. -/
def decorate (wrapper : Player → Player → Action → Option Action)
    (PC : PlayerClass) (namePre : Option String) : PlayerClass :=
  match namePre with
  | some s =>
    if s = "" then
      { className := PC.className, name := PC.name, attrs := PC.attrs,
        strategy := some (StrategyMethod.instanceM (wrappedStrategy wrapper PC)) }
    else
      { className := s ++ PC.className, name := s ++ " " ++ PC.name,
        attrs := PC.attrs,
        strategy := some (StrategyMethod.instanceM (wrappedStrategy wrapper PC)) }
  | none =>
    { className := PC.className, name := PC.name, attrs := PC.attrs,
      strategy := some (StrategyMethod.instanceM (wrappedStrategy wrapper PC)) }

/-- Calling decide on an instance of a class: looks up the strategy method
and invokes it (none = the method is missing or the call raised). -/
def callStrategy (PC : PlayerClass) (self opponent : Player) : Option Action :=
  match PC.strategy with
  | none => none
  | some m => callBase m self opponent

/-- The flip wrapper lifted to the Option-valued wrapper type used by
decorate (flip_wrapper itself never raises). -/
def flipLift : Player → Player → Action → Option Action :=
  fun player opponent action => some (flip_wrapper player opponent action)

/-- Embedding of FlipTransformer (line 113): the factory applied to
flip_wrapper with name_prefix "Flipped". -/
def FlipTransformer (PC : PlayerClass) : PlayerClass :=
  decorate flipLift PC (some "Flipped")

/-- Modelled from the spec: an always-Cooperate base Agent Type
(axelrod.Cooperator, outside src/); its strategy is a staticmethod that
returns Cooperate regardless of histories. -/
def Cooperator : PlayerClass :=
  { className := "Cooperator", name := "Cooperator",
    attrs := [("memory_depth", "0")],
    strategy := some (StrategyMethod.staticM (fun _ => some Action.C)) }

/-- A base class that does not define the required strategy operation. -/
def NoStrategyBase : PlayerClass :=
  { className := "Base", name := "Base", attrs := [], strategy := none }

/-- A fresh agent instance with no rounds played, unknown match length and
no _recorded_history attribute. -/
def dummyPlayer : Player :=
  { history := [], length := -1, recordedHistory := none }

/-- Simulates a match for one instance of a class derived by
RetailiateUntilApologyTransformer (lines 212-219) from an always-Cooperate
base: each round the baseline proposes Cooperate, RetaliationWrapper
transforms it with its is_retaliating state threaded through, and the match
runner appends the returned action to the player's own history (per the
module note of lines 17-21 the history records the transformed actions).
oppMoves lists the opponent's action for the current and remaining rounds;
the result is the derived agent's output sequence. -/
def runRUACooperator (st : Bool) (myHist oppHist oppMoves : List Action) :
    Option (List Action) :=
  match oppMoves with
  | [] => some []
  | oppNext :: rest =>
    match retaliationCall st myHist oppHist Action.C with
    | none => none
    | some (a, st2) =>
      match runRUACooperator st2 (myHist ++ [a]) (oppHist ++ [oppNext]) rest with
      | none => none
      | some outs => some (a :: outs)

/-- Two simultaneously-live instances of one class derived by
RetailiateUntilApologyTransformer.  In the source the transformer creates a
single RetaliationWrapper object (line 218) and the derived class's
strategy closes over it, so every instance of the derived type reads and
writes the same is_retaliating field; this structure models that one shared
field next to the two instances' separate histories. -/
structure RUAPair where
  is_retaliating : Bool
  hist1 : List Action
  oppHist1 : List Action
  hist2 : List Action
  oppHist2 : List Action
deriving DecidableEq, Repr

/-- A decide call on instance 1 of the pair (always-Cooperate base): the
single shared wrapper state is read and written. -/
def decideShared1 (w : RUAPair) : Option (Action × RUAPair) :=
  match retaliationCall w.is_retaliating w.hist1 w.oppHist1 Action.C with
  | none => none
  | some (a, st) => some (a, { w with is_retaliating := st })

/-- A decide call on instance 2 of the pair (always-Cooperate base): the
same shared wrapper state is read and written. -/
def decideShared2 (w : RUAPair) : Option (Action × RUAPair) :=
  match retaliationCall w.is_retaliating w.hist2 w.oppHist2 Action.C with
  | none => none
  | some (a, st) => some (a, { w with is_retaliating := st })

/-- Simulates successive decide calls on one instance of a class derived by
TrackHistoryTransformer (line 229): proposed lists the baseline's proposed
action for each round; each call runs history_track_wrapper on the
instance and the match runner appends the returned action to the
instance's history.  Returns the final instance and the list of returned
actions. -/
def runTrack : Player → Player → List Action → Player × List Action
  | p, _, [] => (p, [])
  | p, opponent, a :: rest =>
    let r := history_track_wrapper p opponent a
    let p2 := { r.2 with history := r.2.history ++ [r.1] }
    let rec2 := runTrack p2 opponent rest
    (rec2.1, r.1 :: rec2.2)

/-- Helper: the strategy method stored by decorate is always the wrapped
strategy, whatever the name_prefix argument is. -/
theorem decorate_strategy (wrapper : Player → Player → Action → Option Action)
    (PC : PlayerClass) (namePre : Option String) :
    (decorate wrapper PC namePre).strategy =
      some (StrategyMethod.instanceM (wrappedStrategy wrapper PC)) := by
  unfold decorate
  cases namePre with
  | none => rfl
  | some s =>
    by_cases hs : s = "" <;> simp [hs]

/-- Helper: the wrapped strategy is the base class's decide composed with
the wrapper. -/
theorem wrappedStrategy_eq (wrapper : Player → Player → Action → Option Action)
    (PC : PlayerClass) (self opponent : Player) :
    wrappedStrategy wrapper PC self opponent =
      match callStrategy PC self opponent with
      | none => none
      | some proposed => wrapper self opponent proposed := by
  unfold wrappedStrategy callStrategy
  cases PC.strategy <;> rfl

/-- C3: an agent derived by RetailiateUntilApologyTransformer from an
always-Cooperate base, in a 5-round match where the opponent plays
[C, D, D, C, C], outputs exactly [C, C, D, D, C]: baseline on the first
round, then the Calm/Retaliating machine of RetaliationWrapper. -/
theorem rua_match_trace :
    runRUACooperator false [] []
        [Action.C, Action.D, Action.D, Action.C, Action.C] =
      some [Action.C, Action.C, Action.D, Action.D, Action.C] := by
  decide

/-- C1: the code shares one RetaliationWrapper object across all instances
of the derived type, so a decide call on instance 1 (own history [C],
opponent history [D]) flips the shared is_retaliating flag from false to
true; that flag is also instance 2's wrapper-private state, so instance 1's
call changed it.  A subsequent decide call on instance 2 (opponent history
[C]) then resets the shared flag to false, changing instance 1's state in
return. -/
theorem rua_instances_share_state :
    (RUAPair.is_retaliating
      { is_retaliating := false, hist1 := [Action.C], oppHist1 := [Action.D],
        hist2 := [Action.C], oppHist2 := [Action.C] } = false) ∧
    decideShared1
        { is_retaliating := false, hist1 := [Action.C], oppHist1 := [Action.D],
          hist2 := [Action.C], oppHist2 := [Action.C] } =
      some (Action.D,
        { is_retaliating := true, hist1 := [Action.C], oppHist1 := [Action.D],
          hist2 := [Action.C], oppHist2 := [Action.C] }) ∧
    decideShared2
        { is_retaliating := true, hist1 := [Action.C], oppHist1 := [Action.D],
          hist2 := [Action.C], oppHist2 := [Action.C] } =
      some (Action.C,
        { is_retaliating := false, hist1 := [Action.C], oppHist1 := [Action.D],
          hist2 := [Action.C], oppHist2 := [Action.C] }) := by
  refine ⟨rfl, ?_, ?_⟩ <;> decide

/-- C2 counterexample: applying a Transformation to a base class that lacks
the strategy operation does not raise at application time — decorate
completes and returns a derived class with the prefixed identifier and a
strategy attribute — and the failure surfaces only at the first decide
call, which raises (none). -/
theorem decorate_no_error_on_missing_strategy :
    (decorate flipLift NoStrategyBase (some "Flipped")).className
        = "FlippedBase" ∧
    (decorate flipLift NoStrategyBase (some "Flipped")).strategy.isSome
        = true ∧
    callStrategy (decorate flipLift NoStrategyBase (some "Flipped"))
        dummyPlayer dummyPlayer = none := by
  refine ⟨by decide, ?_, ?_⟩ <;> rfl

/-- C2 amended: for a base class missing the strategy operation, applying a
Transformation succeeds at application time, producing a derived type with
the prefixed identifier and a strategy attribute; the missing-operation
error (the KeyError from the class-dict lookup) is raised at the first
decide call, not at application time, and the derived agent does not
silently act as a pass-through. -/
theorem missing_strategy_defers
    (wrapper : Player → Player → Action → Option Action)
    (PC : PlayerClass) (s : String) (hs : s ≠ "")
    (hnone : PC.strategy = none) (self opponent : Player) :
    (decorate wrapper PC (some s)).strategy =
      some (StrategyMethod.instanceM (wrappedStrategy wrapper PC)) ∧
    (decorate wrapper PC (some s)).className = s ++ PC.className ∧
    callStrategy (decorate wrapper PC (some s)) self opponent = none := by
  refine ⟨decorate_strategy wrapper PC (some s), ?_, ?_⟩
  · unfold decorate
    simp [hs]
  · unfold callStrategy
    rw [decorate_strategy]
    show wrappedStrategy wrapper PC self opponent = none
    unfold wrappedStrategy
    rw [hnone]

/-- C2 witness for the amended claim, at the concrete missing-strategy base
class with prefix "Flipped" and a fresh instance. -/
theorem missing_strategy_defers_witness :
    (decorate flipLift NoStrategyBase (some "F")).strategy =
      some (StrategyMethod.instanceM (wrappedStrategy flipLift NoStrategyBase)) ∧
    (decorate flipLift NoStrategyBase (some "F")).className
      = "F" ++ NoStrategyBase.className ∧
    callStrategy (decorate flipLift NoStrategyBase (some "F"))
      dummyPlayer dummyPlayer = none :=
  missing_strategy_defers flipLift NoStrategyBase "F" (by decide) rfl
    dummyPlayer dummyPlayer

/-- C4: the noisy wrapper with noise 0 returns the proposed action
unchanged for every random draw r with 0 <= r < 1, and with noise 1 it
returns the flipped action for every such draw. -/
theorem noisy_edge (p o : Player) (a : Action) (r : ℚ)
    (h0 : 0 ≤ r) (h1 : r < 1) :
    noisy_wrapper p o a 0 r = a ∧
    noisy_wrapper p o a 1 r = flip_action a := by
  constructor
  · unfold noisy_wrapper
    rw [if_neg (not_lt.mpr h0)]
  · unfold noisy_wrapper
    rw [if_pos h1]

/-- C4 witness at the concrete draw r = 1/2 on a fresh instance. -/
theorem noisy_edge_witness :
    noisy_wrapper dummyPlayer dummyPlayer Action.C 0 (1 / 2) = Action.C ∧
    noisy_wrapper dummyPlayer dummyPlayer Action.C 1 (1 / 2)
      = flip_action Action.C :=
  noisy_edge dummyPlayer dummyPlayer Action.C (1 / 2) (by norm_num)
    (by norm_num)

/-- C5: over a base whose decide is constantly Cooperate, the
FlipTransformer-derived agent's decide is constantly Defect; and over any
base, applying FlipTransformer twice gives an agent whose decide equals the
base's decide (flip is an involution). -/
theorem flip_transformer_spec (PC PC2 : PlayerClass) (p o p2 o2 : Player)
    (hC : ∀ q r : Player, callStrategy PC q r = some Action.C) :
    callStrategy (FlipTransformer PC) p o = some Action.D ∧
    callStrategy (FlipTransformer (FlipTransformer PC2)) p2 o2 =
      callStrategy PC2 p2 o2 := by
  have hcall : ∀ (w : Player → Player → Action → Option Action)
      (Q : PlayerClass) (x y : Player),
      callStrategy (decorate w Q (some "Flipped")) x y =
        wrappedStrategy w Q x y := by
    intro w Q x y
    unfold callStrategy
    rw [decorate_strategy]
    rfl
  constructor
  · unfold FlipTransformer
    rw [hcall, wrappedStrategy_eq, hC p o]
    rfl
  · unfold FlipTransformer
    rw [hcall, wrappedStrategy_eq, hcall, wrappedStrategy_eq]
    cases hres : callStrategy PC2 p2 o2 with
    | none => rfl
    | some a => cases a <;> rfl

/-- C5 witness at the always-Cooperate base class and a fresh instance. -/
theorem flip_transformer_witness :
    callStrategy (FlipTransformer Cooperator) dummyPlayer dummyPlayer
      = some Action.D ∧
    callStrategy (FlipTransformer (FlipTransformer Cooperator))
        dummyPlayer dummyPlayer
      = callStrategy Cooperator dummyPlayer dummyPlayer :=
  flip_transformer_spec Cooperator Cooperator dummyPlayer dummyPlayer
    dummyPlayer dummyPlayer (fun q r => rfl)

/-- Helper: final_sequence with its local bindings expanded. -/
theorem final_sequence_eq (player opponent : Player) (action : Action)
    (seq : List Action) :
    final_sequence player opponent action seq =
      if player.length < 0 then some action
      else if player.length - (player.history.length : Int)
          ≤ (seq.length : Int) then
        pyIndex seq (-(player.length - (player.history.length : Int)))
      else some action := rfl

/-- C6: an agent derived by FinalTransformer with sequence [D] from an
always-Cooperate base: with known match length 5, rounds with 0 to 3 rounds
already played return Cooperate and the round with 4 rounds played (the
last, 0-based index 4) returns Defect; with a negative length sentinel the
proposed action always passes through unchanged. -/
theorem final_transformer_last_round (p q o : Player) (a : Action)
    (h5 : p.length = 5) (hneg : q.length < 0) :
    (p.history.length ≤ 3 →
      final_sequence p o Action.C [Action.D] = some Action.C) ∧
    (p.history.length = 4 →
      final_sequence p o Action.C [Action.D] = some Action.D) ∧
    final_sequence q o a [Action.D] = some a := by
  refine ⟨?_, ?_, ?_⟩
  · intro hle
    rw [final_sequence_eq, h5]
    rw [if_neg (by norm_num)]
    rw [if_neg ?hc]
    case hc =>
      simp only [List.length_cons, List.length_nil]
      omega
  · intro h4
    rw [final_sequence_eq, h5, h4]
    decide
  · rw [final_sequence_eq, if_pos hneg]

/-- A fresh instance of a match of known length 5. -/
def lenFiveFresh : Player :=
  { history := [], length := 5, recordedHistory := none }

/-- An instance of a match of known length 5 with 4 rounds played. -/
def lenFiveAt4 : Player :=
  { history := [Action.C, Action.C, Action.C, Action.C], length := 5,
    recordedHistory := none }

/-- C6 witness at concrete instances: length 5 with 0 and with 4 rounds
played, and a fresh instance with the unknown-length sentinel. -/
theorem final_transformer_last_round_witness :
    final_sequence lenFiveFresh dummyPlayer Action.C [Action.D]
      = some Action.C ∧
    final_sequence lenFiveAt4 dummyPlayer Action.C [Action.D]
      = some Action.D ∧
    final_sequence dummyPlayer dummyPlayer Action.C [Action.D]
      = some Action.C := by
  refine ⟨?_, ?_, ?_⟩
  · exact (final_transformer_last_round lenFiveFresh dummyPlayer dummyPlayer
      Action.C rfl (by decide)).1 (by decide)
  · exact (final_transformer_last_round lenFiveAt4 dummyPlayer dummyPlayer
      Action.C rfl (by decide)).2.1 (by decide)
  · exact (final_transformer_last_round lenFiveFresh dummyPlayer dummyPlayer
      Action.C rfl (by decide)).2.2

/-- Helper: every entry of the default three-defection sequence is D. -/
theorem get_three_defects (i : Fin ([Action.D, Action.D, Action.D].length)) :
    [Action.D, Action.D, Action.D].get i = Action.D := by
  fin_cases i <;> rfl

/-- C7: the initial-sequence wrapper returns seq[index] while the number of
rounds already played is below len(seq) and the proposed action afterwards;
in particular with seq = [D, D, D] rounds 0, 1, 2 give Defect and every
later round gives the proposed action. -/
theorem initial_transformer_spec (p o : Player) (a : Action)
    (seq : List Action) :
    (∀ h : p.history.length < seq.length,
      initial_sequence p o a seq = seq.get ⟨p.history.length, h⟩) ∧
    (seq.length ≤ p.history.length → initial_sequence p o a seq = a) ∧
    (p.history.length < 3 →
      initial_sequence p o a [Action.D, Action.D, Action.D] = Action.D) ∧
    (3 ≤ p.history.length →
      initial_sequence p o a [Action.D, Action.D, Action.D] = a) := by
  refine ⟨?_, ?_, ?_, ?_⟩
  · intro h
    unfold initial_sequence
    rw [dif_pos h]
  · intro h
    unfold initial_sequence
    rw [dif_neg (not_lt.mpr h)]
  · intro h
    have h3 : p.history.length < [Action.D, Action.D, Action.D].length := by
      simpa using h
    unfold initial_sequence
    rw [dif_pos h3]
    exact get_three_defects ⟨p.history.length, h3⟩
  · intro h
    have h3 : ¬ p.history.length < [Action.D, Action.D, Action.D].length := by
      simpa using not_lt.mpr h
    unfold initial_sequence
    rw [dif_neg h3]

/-- An instance with three rounds already played. -/
def playerAt3 : Player :=
  { history := [Action.C, Action.C, Action.C], length := -1,
    recordedHistory := none }

/-- C7 witness: round 0 of a fresh instance gives Defect, round 3 gives the
proposed Cooperate back. -/
theorem initial_transformer_witness :
    initial_sequence dummyPlayer dummyPlayer Action.C
      [Action.D, Action.D, Action.D] = Action.D ∧
    initial_sequence playerAt3 dummyPlayer Action.C
      [Action.D, Action.D, Action.D] = Action.C :=
  ⟨(initial_transformer_spec dummyPlayer dummyPlayer Action.C
      [Action.D, Action.D, Action.D]).2.2.1 (by decide),
   (initial_transformer_spec playerAt3 dummyPlayer Action.C
      [Action.D, Action.D, Action.D]).2.2.2 (by decide)⟩

/-- C8: for every non-empty prefix the derived class keeps every other
class attribute of the base, gets the identifier prefixed directly, the
display name prefixed with a separating space, and has its strategy
replaced by the wrapped composition. -/
theorem decorate_naming (wrapper : Player → Player → Action → Option Action)
    (PC : PlayerClass) (s : String) (hs : s ≠ "") :
    (decorate wrapper PC (some s)).className = s ++ PC.className ∧
    (decorate wrapper PC (some s)).name = s ++ " " ++ PC.name ∧
    (decorate wrapper PC (some s)).attrs = PC.attrs ∧
    (decorate wrapper PC (some s)).strategy =
      some (StrategyMethod.instanceM (wrappedStrategy wrapper PC)) := by
  unfold decorate
  simp [hs]

/-- C8 witness at the always-Cooperate base with prefix "Flipped". -/
theorem decorate_naming_witness :
    (decorate flipLift Cooperator (some "Flipped")).className
      = "Flipped" ++ Cooperator.className ∧
    (decorate flipLift Cooperator (some "Flipped")).name
      = "Flipped" ++ " " ++ Cooperator.name ∧
    (decorate flipLift Cooperator (some "Flipped")).attrs = Cooperator.attrs ∧
    (decorate flipLift Cooperator (some "Flipped")).strategy =
      some (StrategyMethod.instanceM (wrappedStrategy flipLift Cooperator)) :=
  decorate_naming flipLift Cooperator "Flipped" (by decide)

/-- Helper: once the _recorded_history attribute holds some log l, further
rounds return the proposed actions unchanged and extend the log by exactly
those actions. -/
theorem runTrack_log (opponent : Player) (proposed : List Action) :
    ∀ (p : Player) (l : List Action), p.recordedHistory = some l →
      (runTrack p opponent proposed).2 = proposed ∧
      (runTrack p opponent proposed).1.recordedHistory
        = some (l ++ proposed) := by
  induction proposed with
  | nil =>
    intro p l h
    exact ⟨rfl, by simpa using h⟩
  | cons a rest ih =>
    intro p l h
    have hrec := ih
      { history := p.history ++ [a], length := p.length,
        recordedHistory := some (l ++ [a]) } (l ++ [a]) rfl
    simp only [runTrack, history_track_wrapper, h]
    exact ⟨by rw [hrec.1], by rw [hrec.2]; simp⟩

/-- C9: the history-tracking wrapper returns every proposed action
unchanged; over N decide calls on a fresh instance the returned sequence is
the proposed sequence, and the private log is created lazily on the first
call (absent only while no call has happened) and afterwards equals the
returned sequence, so its length is exactly N. -/
theorem track_history_spec (p opponent : Player) (proposed : List Action)
    (hfresh : p.recordedHistory = none) :
    (∀ (q o : Player) (b : Action), (history_track_wrapper q o b).1 = b) ∧
    (runTrack p opponent proposed).2 = proposed ∧
    (runTrack p opponent proposed).1.recordedHistory
      = (if proposed = [] then none else some proposed) ∧
    ((runTrack p opponent proposed).1.recordedHistory.getD []).length
      = proposed.length := by
  have hpass : ∀ (q o : Player) (b : Action),
      (history_track_wrapper q o b).1 = b := by
    intro q o b
    unfold history_track_wrapper
    cases q.recordedHistory <;> rfl
  have hmain : (runTrack p opponent proposed).2 = proposed ∧
      (runTrack p opponent proposed).1.recordedHistory
        = (if proposed = [] then none else some proposed) := by
    cases proposed with
    | nil => exact ⟨rfl, by simpa using hfresh⟩
    | cons a rest =>
      have hrec := runTrack_log opponent rest
        { history := p.history ++ [a], length := p.length,
          recordedHistory := some [a] } [a] rfl
      simp only [runTrack, history_track_wrapper, hfresh]
      exact ⟨by rw [hrec.1], by rw [hrec.2]; simp⟩
  refine ⟨hpass, hmain.1, hmain.2, ?_⟩
  rw [hmain.2]
  cases proposed with
  | nil => simp
  | cons a rest => simp

/-- C9 witness: three rounds of proposed actions C, D, C on a fresh
instance. -/
theorem track_history_witness :
    (∀ (q o : Player) (b : Action), (history_track_wrapper q o b).1 = b) ∧
    (runTrack dummyPlayer dummyPlayer [Action.C, Action.D, Action.C]).2
      = [Action.C, Action.D, Action.C] ∧
    (runTrack dummyPlayer dummyPlayer
        [Action.C, Action.D, Action.C]).1.recordedHistory
      = (if ([Action.C, Action.D, Action.C] : List Action) = [] then none
         else some [Action.C, Action.D, Action.C]) ∧
    ((runTrack dummyPlayer dummyPlayer
        [Action.C, Action.D, Action.C]).1.recordedHistory.getD []).length
      = ([Action.C, Action.D, Action.C] : List Action).length :=
  track_history_spec dummyPlayer dummyPlayer [Action.C, Action.D, Action.C]
    rfl

/-- C10: when the known length is non-negative and exactly as many rounds
have been played as the length, the computed index is 0 and final_sequence
returns seq[-0] = seq[0], the first element — not the proposed action and
not seq[-1]. -/
theorem final_sequence_at_length (p o : Player) (a : Action)
    (seq : List Action) (hL : 0 ≤ p.length)
    (hist : (p.history.length : Int) = p.length) (hq : seq ≠ []) :
    final_sequence p o a seq = some (seq.head hq) := by
  rw [final_sequence_eq]
  rw [if_neg (not_lt.mpr hL)]
  have hz : p.length - (p.history.length : Int) = 0 := by omega
  rw [hz]
  rw [if_pos (by positivity)]
  cases seq with
  | nil => exact absurd rfl hq
  | cons x xs =>
    show pyIndex (x :: xs) (-0) = some x
    norm_num [pyIndex]

/-- C10 witness: length 2 with 2 rounds played and seq = [C, D] gives the
first element C, not the proposed D and not the last element D. -/
theorem final_sequence_at_length_witness :
    final_sequence
        { history := [Action.C, Action.C], length := 2,
          recordedHistory := none }
        dummyPlayer Action.D [Action.C, Action.D]
      = some (([Action.C, Action.D] : List Action).head (by decide)) :=
  final_sequence_at_length
    { history := [Action.C, Action.C], length := 2, recordedHistory := none }
    dummyPlayer Action.D [Action.C, Action.D] (by decide) (by decide)
    (by decide)

end Axelrod
